import Mathlib

/-!
Shallow embedding of `src/training/training.py` (the training driver of
SlangLab-NU/Aphasic_speech_recognition) and proofs about its original logic:
the hyperparameter table (`get_training_args`), the encoder layer freezer
(lines 46-52), the checkpoint locator (`get_latest_checkpoint`), and the
fresh-start / resume decision around `trainer.train`.

Modelling conventions:
* Python strings are Lean `String`s; `str.startswith(pre)` is `pyStartsWith`
  and `str.split("-")` is `pySplit s·'-'`, both defined structurally over
  `String.data` so that every definition kernel-evaluates on concrete input.
* `int(tok)` on a string token is `pyInt?` (optional sign followed by decimal
  digits; failure models Python's `ValueError`).
* The filesystem is passed explicitly: a directory is an
  `Option (List String)` — `none` when `os.path.isdir` is false, otherwise
  the entry names returned by `os.listdir`.
* A model parameter is represented by its `requires_grad` flag (`Bool`);
  `model.model.encoder.layers` is a list of sublayers, each a list of flags.
* Python exceptions (`IndexError`, `ValueError`) are `Except String`.
-/

namespace Training

/-- The closed set of sizes accepted by argparse (training.py line 16,
`choices=["tiny", "small", "medium", "large"]`). -/
def sizeChoices : List String := ["tiny", "small", "medium", "large"]

/-- The parsed command-line arguments (training.py lines 15-18):
a positional `model_size` and an optional integer `--freeze_layers`
(default 0, `type=int`, no further validation). -/
structure Args where
  model_size : String
  freeze_layers : Int
deriving Repr, DecidableEq

/-- argparse's input validation (training.py lines 15-18): the size must be
one of the four choices (otherwise argparse aborts the process, modelled as
`none`); the freeze count is any integer — argparse performs no sign check
on `--freeze_layers`. -/
def parseArgs (model_size : String) (freeze_layers : Int) : Option Args :=
  if model_size ∈ sizeChoices then some ⟨model_size, freeze_layers⟩ else none

/-- The Whisper model as the freezing loop sees it: the ordered encoder
sublayers `model.model.encoder.layers`, each reduced to the list of
`requires_grad` flags of its parameters, plus every parameter outside the
encoder sublayers (decoder, embeddings, ...). -/
structure WhisperModel where
  encoderLayers : List (List Bool)
  otherParams : List Bool
deriving Repr, DecidableEq

/-- One iteration of the freezing loop body (training.py lines 49-50):
`for param in model.model.encoder.layers[layer_idx].parameters():
param.requires_grad = False`. Indexing out of range is Python's
`IndexError`, modelled as `none`. -/
def freezeLayerAt (layers : List (List Bool)) (i : Nat) : Option (List (List Bool)) :=
  match layers[i]? with
  | some l => some (layers.set i (l.map (fun _ => false)))
  | none => none

/-- The freezing loop (training.py line 48): `for layer_idx in range(n)`
starting at `start`, performing `count` iterations; the first out-of-range
index aborts with `IndexError` (`none`). -/
def freezeRange : Nat → Nat → List (List Bool) → Option (List (List Bool))
  | _, 0, layers => some layers
  | start, count + 1, layers =>
    match freezeLayerAt layers start with
    | some l => freezeRange (start + 1) count l
    | none => none

/-- The freeze block (training.py lines 46-52): when `freeze_layers > 0` run
the loop over `range(freeze_layers)` (printing the freezing message),
otherwise leave the model untouched and print
"No encoder layers are frozen.". The returned string is the log line; an
out-of-range index surfaces as an `IndexError`. -/
def freezeEncoderLayers (m : WhisperModel) (freeze_layers : Int) :
    Except String (WhisperModel × String) :=
  if 0 < freeze_layers then
    match freezeRange 0 freeze_layers.toNat m.encoderLayers with
    | some l =>
      Except.ok ({ m with encoderLayers := l },
        "Freezing the first " ++ toString freeze_layers ++ " encoder layers.")
    | none => Except.error "IndexError: list index out of range"
  else
    Except.ok (m, "No encoder layers are frozen.")

/-- The configuration record built by `get_training_args`
(training.py lines 78-148); learning rates are modelled as exact rationals. -/
structure Seq2SeqTrainingArguments where
  output_dir : String
  per_device_train_batch_size : Nat
  gradient_accumulation_steps : Nat
  learning_rate : Rat
  warmup_steps : Nat
  max_steps : Nat
  gradient_checkpointing : Bool
  fp16 : Bool
  eval_strategy : String
  per_device_eval_batch_size : Nat
  predict_with_generate : Bool
  generation_max_length : Nat
  save_steps : Nat
  eval_steps : Nat
  logging_steps : Nat
  report_to : List String
  load_best_model_at_end : Bool
  metric_for_best_model : String
  greater_is_better : Bool
  push_to_hub : Bool
  save_total_limit : Nat
deriving Repr, DecidableEq

/-- The output-directory choice (training.py lines 71-75): the default
`whisper-<size>-vanilla` name, overridden to `whisper-large-freezing-<k>`
exactly when the size is "large" and the freeze count is positive. -/
def output_dir_for (model_size : String) (freeze_layers : Int) : String :=
  if model_size = "large" ∧ 0 < freeze_layers then
    "../../trained_models/whisper-large-freezing-" ++ toString freeze_layers
  else
    "../../trained_models/whisper-" ++ model_size ++ "-vanilla"

/-- The hyperparameter table (training.py lines 70-148). The chain of
branches covers only "small", "medium" and "large"; any other size —
including "tiny", which argparse accepts — falls through to Python's
implicit `return None`, modelled as `none`. -/
def get_training_args (model_size : String) (freeze_layers : Int) :
    Option Seq2SeqTrainingArguments :=
  let output_dir := output_dir_for model_size freeze_layers
  if model_size = "small" then
    some
      { output_dir := output_dir
        per_device_train_batch_size := 16
        gradient_accumulation_steps := 1
        learning_rate := 1.25e-5
        warmup_steps := 500
        max_steps := 14000
        gradient_checkpointing := true
        fp16 := true
        eval_strategy := "steps"
        per_device_eval_batch_size := 8
        predict_with_generate := true
        generation_max_length := 225
        save_steps := 1000
        eval_steps := 1000
        logging_steps := 25
        report_to := ["tensorboard"]
        load_best_model_at_end := true
        metric_for_best_model := "wer"
        greater_is_better := false
        push_to_hub := false
        save_total_limit := 5 }
  else if model_size = "medium" then
    some
      { output_dir := output_dir
        per_device_train_batch_size := 8
        gradient_accumulation_steps := 2
        learning_rate := 6.25e-6
        warmup_steps := 500
        max_steps := 14000
        gradient_checkpointing := true
        fp16 := true
        eval_strategy := "steps"
        per_device_eval_batch_size := 8
        predict_with_generate := true
        generation_max_length := 225
        save_steps := 1000
        eval_steps := 1000
        logging_steps := 25
        report_to := ["tensorboard"]
        load_best_model_at_end := true
        metric_for_best_model := "wer"
        greater_is_better := false
        push_to_hub := false
        save_total_limit := 5 }
  else if model_size = "large" then
    some
      { output_dir := output_dir
        per_device_train_batch_size := 4
        gradient_accumulation_steps := 4
        learning_rate := 5e-6
        warmup_steps := 1000
        max_steps := 14000
        gradient_checkpointing := true
        fp16 := true
        eval_strategy := "steps"
        per_device_eval_batch_size := 8
        predict_with_generate := true
        generation_max_length := 225
        save_steps := 1000
        eval_steps := 1000
        logging_steps := 25
        report_to := ["tensorboard"]
        load_best_model_at_end := true
        metric_for_best_model := "wer"
        greater_is_better := false
        push_to_hub := false
        save_total_limit := 5 }
  else
    none

/-- Python's `s.startswith(pre)`: prefix test on the character lists. -/
def pyStartsWith (s pre : String) : Bool :=
  pre.data.isPrefixOf s.data

/-- Python's `str.split(sep)` for a one-character separator, on character
lists: splitting the empty string gives `[""]`, and every occurrence of the
separator opens a new (possibly empty) field, exactly as in Python. -/
def splitOnChar (sep : Char) : List Char → List (List Char)
  | [] => [[]]
  | c :: cs =>
    if c = sep then [] :: splitOnChar sep cs
    else
      match splitOnChar sep cs with
      | [] => [[c]]
      | t :: ts => (c :: t) :: ts

/-- Python's `s.split(sep)` for a one-character separator. -/
def pySplit (s : String) (sep : Char) : List String :=
  (splitOnChar sep s.data).map (fun cs => String.mk cs)

/-- Decimal digits folded into a `Nat` (used by `pyIntOfChars`; only applied
when every character is a digit). -/
def digitsToNat (l : List Char) : Nat :=
  l.foldl (fun n c => n * 10 + (c.toNat - 48)) 0

/-- Python's `int(tok)` on the characters of a string token: an optional
sign followed by a nonempty run of decimal digits; anything else raises
`ValueError`, modelled as `none`. (Whitespace stripping and underscore
separators, which checkpoint names never contain, are not modelled.) -/
def pyIntOfChars : List Char → Option Int
  | [] => none
  | c :: t =>
    if c = '-' then
      if t ≠ [] ∧ t.all Char.isDigit then some (-(digitsToNat t : Int)) else none
    else if c = '+' then
      if t ≠ [] ∧ t.all Char.isDigit then some ((digitsToNat t : Int)) else none
    else
      if (c :: t).all Char.isDigit then some ((digitsToNat (c :: t) : Int)) else none

/-- Python's `int(tok)` on a string token. -/
def pyInt? (s : String) : Option Int :=
  pyIntOfChars s.data

/-- The sort key of the checkpoint sort (training.py line 158):
`int(x.split("-")[1])`. A name with no "-" raises `IndexError`; a
non-integer token after the first "-" raises `ValueError`. -/
def checkpointKey (name : String) : Except String Int :=
  match (pySplit name '-')[1]? with
  | none => Except.error "IndexError: list index out of range"
  | some tok =>
    match pyInt? tok with
    | some k => Except.ok k
    | none => Except.error ("ValueError: invalid literal for int with base 10: " ++ tok)

/-- The candidate filter (training.py line 155):
`[d for d in os.listdir(output_dir) if d.startswith("checkpoint")]`. -/
def checkpointCandidates (entries : List String) : List String :=
  entries.filter (fun d => pyStartsWith d "checkpoint")

/-- The sort's key computation over the whole candidate list, in list order
(Python's `list.sort(key=...)` computes every key before comparing; the
first failing key aborts the sort with that exception). -/
def keysOf : List String → Except String (List (String × Int))
  | [] => Except.ok []
  | d :: ds =>
    match checkpointKey d with
    | Except.error e => Except.error e
    | Except.ok k =>
      match keysOf ds with
      | Except.error e => Except.error e
      | Except.ok rest => Except.ok ((d, k) :: rest)

/-- `checkpoints.sort(key=..., reverse=True)` followed by `checkpoints[0]`
(training.py lines 158-159): the first element of a stable descending sort
is the earliest element attaining the maximal key, which this fold computes
directly (the accumulator is replaced only on a strictly greater key). -/
def pickMax (p : String × Int) (ps : List (String × Int)) : String × Int :=
  ps.foldl (fun acc q => if acc.2 < q.2 then q else acc) p

/-- `get_latest_checkpoint` (training.py lines 153-160). `listing` is the
directory: `none` when `os.path.isdir(output_dir)` is false, otherwise the
`os.listdir` entries. `os.path.join(output_dir, name)` is modelled as
`output_dir ++ "/" ++ name` (no entry name is absolute and `output_dir`
carries no trailing slash). -/
def get_latest_checkpoint (output_dir : String) (listing : Option (List String)) :
    Except String (Option String) :=
  match listing with
  | none => Except.ok none
  | some entries =>
    match keysOf (checkpointCandidates entries) with
    | Except.error e => Except.error e
    | Except.ok [] => Except.ok none
    | Except.ok (p :: ps) =>
      Except.ok (some (output_dir ++ "/" ++ (pickMax p ps).1))

/-- The run mode decided at lines 162-166 and passed to `trainer.train`
at line 183. -/
inductive StartMode where
  | fresh
  | resume (path : String)
deriving Repr, DecidableEq

/-- The fresh-start / resume decision (training.py lines 162-166, 183):
`checkpoint = get_latest_checkpoint(...)`; `if checkpoint:` — the located
path is never the empty string, so Python truthiness coincides with
non-`None` — and `trainer.train(resume_from_checkpoint=checkpoint)`. -/
def startMode (output_dir : String) (listing : Option (List String)) :
    Except String StartMode :=
  match get_latest_checkpoint output_dir listing with
  | Except.error e => Except.error e
  | Except.ok none => Except.ok StartMode.fresh
  | Except.ok (some p) => Except.ok (StartMode.resume p)

/-! ### Properties of the freezing loop -/

/-- When the requested range reaches past the last sublayer, the loop hits an
out-of-range index and aborts (training.py line 49 raises `IndexError`). -/
theorem freezeRange_oob :
    ∀ (count start : Nat) (layers : List (List Bool)),
      0 < count → layers.length < start + count →
      freezeRange start count layers = none := by
  intro count
  induction count with
  | zero => intro start layers h _; exact absurd h (by omega)
  | succ c ih =>
    intro start layers _ hlen
    cases hg : layers[start]? with
    | none => simp [freezeRange, freezeLayerAt, hg]
    | some l0 =>
      have hlt : start < layers.length := (List.getElem?_eq_some_iff.mp hg).1
      have hrec := ih (start + 1) (layers.set start (l0.map fun _ => false))
        (by omega) (by simp [List.length_set]; omega)
      have hA : freezeLayerAt layers start = some (layers.set start (l0.map fun _ => false)) := by
        simp only [freezeLayerAt, hg]
      simp only [freezeRange, hA]
      exact hrec

/-- When the requested range stays within the sublayer list, the loop
completes. -/
theorem freezeRange_some_of_le :
    ∀ (count start : Nat) (layers : List (List Bool)),
      start + count ≤ layers.length →
      ∃ l, freezeRange start count layers = some l := by
  intro count
  induction count with
  | zero => intro start layers _; exact ⟨layers, rfl⟩
  | succ c ih =>
    intro start layers hle
    have hlt : start < layers.length := by omega
    have hg : layers[start]? = some layers[start] := List.getElem?_eq_getElem hlt
    obtain ⟨l, hl⟩ := ih (start + 1) (layers.set start (layers[start].map fun _ => false))
      (by simp [List.length_set]; omega)
    have hA : freezeLayerAt layers start =
        some (layers.set start (layers[start].map fun _ => false)) := by
      simp only [freezeLayerAt, hg]
    refine ⟨l, ?_⟩
    simp only [freezeRange, hA]
    exact hl

/-- Exact characterisation of a completed freezing loop: the sublayers with
index in `[start, start + count)` have all their flags cleared, every other
sublayer is untouched, and the list of sublayers keeps its length. -/
theorem freezeRange_eq_some :
    ∀ (count start : Nat) (layers l : List (List Bool)),
      freezeRange start count layers = some l →
      l.length = layers.length ∧
      ∀ i, l[i]? =
        if start ≤ i ∧ i < start + count then
          (layers[i]?).map (List.map (fun _ => false))
        else layers[i]? := by
  intro count
  induction count with
  | zero =>
    intro start layers l h
    simp only [freezeRange] at h
    cases h
    exact ⟨rfl, fun i => by rw [if_neg (by omega)]⟩
  | succ c ih =>
    intro start layers l h
    simp only [freezeRange] at h
    cases hA : freezeLayerAt layers start with
    | none => rw [hA] at h; cases h
    | some layers1 =>
      rw [hA] at h
      unfold freezeLayerAt at hA
      cases hg : layers[start]? with
      | none => rw [hg] at hA; cases hA
      | some l0 =>
        rw [hg] at hA
        injection hA with hA1
        have hlt : start < layers.length := (List.getElem?_eq_some_iff.mp hg).1
        obtain ⟨hlen, hchar⟩ := ih (start + 1) layers1 l h
        constructor
        · rw [hlen, ← hA1, List.length_set]
        · intro i
          have hci := hchar i
          by_cases hi : i = start
          · subst hi
            rw [if_neg (by omega)] at hci
            rw [if_pos (by omega), hci, ← hA1, List.getElem?_set_self hlt, hg]
            rfl
          · have hne : layers1[i]? = layers[i]? := by
              rw [← hA1]; exact List.getElem?_set_ne (fun hsi => hi hsi.symm)
            by_cases hr : start + 1 ≤ i ∧ i < start + 1 + c
            · rw [if_pos hr] at hci
              rw [if_pos (by omega), hci, hne]
            · rw [if_neg hr] at hci
              rw [if_neg (by omega), hci, hne]

/-- C3: for every freeze-layer count strictly greater than the number of
encoder sublayers, the layer freezer fails with a bounds error
(`IndexError`) instead of silently clamping to the available layers. -/
theorem freeze_layers_out_of_bounds (m : WhisperModel) (n : Int)
    (h : (m.encoderLayers.length : Int) < n) :
    freezeEncoderLayers m n = Except.error "IndexError: list index out of range" := by
  have hpos : 0 < n := by omega
  have hoob := freezeRange_oob n.toNat 0 m.encoderLayers (by omega) (by omega)
  simp [freezeEncoderLayers, hpos, hoob]

/-- Witness for `freeze_layers_out_of_bounds`: a model with one encoder
sublayer, asked to freeze two. -/
theorem freeze_layers_out_of_bounds_witness :
    ((⟨[[true]], []⟩ : WhisperModel).encoderLayers.length : Int) < 2 ∧
    freezeEncoderLayers ⟨[[true]], []⟩ 2 =
      Except.error "IndexError: list index out of range" :=
  ⟨by decide, freeze_layers_out_of_bounds ⟨[[true]], []⟩ 2 (by decide)⟩

/-- C6: for every freeze-layer count `N` with `0 ≤ N ≤` the number of
encoder sublayers, the freeze step succeeds; every parameter of the
sublayers at positions `[0, N)` is non-trainable afterwards, every other
parameter (remaining encoder sublayers and everything outside the encoder)
is untouched — in particular it keeps whatever trainability it had — and
`N = 0` leaves the model identical and logs
"No encoder layers are frozen." rather than being silently skipped. -/
theorem freeze_layers_frame (m : WhisperModel) (N : Nat)
    (h : N ≤ m.encoderLayers.length) :
    ∃ m2 log, freezeEncoderLayers m (N : Int) = Except.ok (m2, log) ∧
      m2.otherParams = m.otherParams ∧
      m2.encoderLayers.length = m.encoderLayers.length ∧
      (∀ i, i < N →
        m2.encoderLayers[i]? = (m.encoderLayers[i]?).map (List.map (fun _ => false))) ∧
      (∀ i l, i < N → m2.encoderLayers[i]? = some l → ∀ b ∈ l, b = false) ∧
      (∀ i, N ≤ i → m2.encoderLayers[i]? = m.encoderLayers[i]?) ∧
      (N = 0 → m2 = m ∧ log = "No encoder layers are frozen.") := by
  by_cases hN : N = 0
  · subst hN
    refine ⟨m, "No encoder layers are frozen.", ?_, rfl, rfl, ?_, ?_, fun _ _ => rfl, fun _ => ⟨rfl, rfl⟩⟩
    · simp [freezeEncoderLayers]
    · intro i hi; exact absurd hi (by omega)
    · intro i l hi; exact absurd hi (by omega)
  · have hpos : (0 : Int) < (N : Int) := by
      have := Nat.pos_of_ne_zero hN
      omega
    obtain ⟨l, hl⟩ := freezeRange_some_of_le N 0 m.encoderLayers (by omega)
    obtain ⟨hlen, hchar⟩ := freezeRange_eq_some N 0 m.encoderLayers l hl
    have htn : (N : Int).toNat = N := Int.toNat_natCast N
    have hEq : freezeEncoderLayers m (N : Int) =
        Except.ok ({ m with encoderLayers := l },
          "Freezing the first " ++ toString (N : Int) ++ " encoder layers.") := by
      simp only [freezeEncoderLayers, if_pos hpos, htn, hl]
    refine ⟨{ m with encoderLayers := l }, _, hEq, rfl, hlen, ?_, ?_, ?_, fun h0 => absurd h0 hN⟩
    · intro i hi
      have hci := hchar i
      rw [if_pos (by omega)] at hci
      exact hci
    · intro i li hi hsome b hb
      have hci := hchar i
      rw [if_pos (by omega)] at hci
      rw [hsome] at hci
      obtain ⟨l0, _, hmap⟩ := (Option.map_eq_some'.mp hci.symm)
      rw [← hmap] at hb
      obtain ⟨a, _, hab⟩ := List.mem_map.mp hb
      exact hab.symm
    · intro i hi
      have hci := hchar i
      rw [if_neg (by omega)] at hci
      exact hci

/-- Witness for `freeze_layers_frame`: a two-sublayer model, freezing one. -/
theorem freeze_layers_frame_witness :
    1 ≤ (⟨[[true, true], [true]], [true]⟩ : WhisperModel).encoderLayers.length ∧
    ∃ m2 log,
      freezeEncoderLayers ⟨[[true, true], [true]], [true]⟩ ((1 : Nat) : Int) =
        Except.ok (m2, log) ∧
      m2.otherParams = (⟨[[true, true], [true]], [true]⟩ : WhisperModel).otherParams ∧
      m2.encoderLayers.length =
        (⟨[[true, true], [true]], [true]⟩ : WhisperModel).encoderLayers.length ∧
      (∀ i, i < 1 →
        m2.encoderLayers[i]? =
          ((⟨[[true, true], [true]], [true]⟩ : WhisperModel).encoderLayers[i]?).map
            (List.map (fun _ => false))) ∧
      (∀ i l, i < 1 → m2.encoderLayers[i]? = some l → ∀ b ∈ l, b = false) ∧
      (∀ i, 1 ≤ i →
        m2.encoderLayers[i]? =
          (⟨[[true, true], [true]], [true]⟩ : WhisperModel).encoderLayers[i]?) ∧
      (1 = 0 → m2 = ⟨[[true, true], [true]], [true]⟩ ∧
        log = "No encoder layers are frozen.") :=
  ⟨by decide, freeze_layers_frame ⟨[[true, true], [true]], [true]⟩ 1 (by decide)⟩

/-- C10: the freeze step only ever clears trainability: whenever it
succeeds, a parameter that was already non-trainable is still
non-trainable, and no parameter outside the encoder sublayers changes at
all; the loop writes `requires_grad = False` and never `True`. -/
theorem freeze_never_unfreezes (m : WhisperModel) (n : Int) (m2 : WhisperModel)
    (log : String) (h : freezeEncoderLayers m n = Except.ok (m2, log)) :
    m2.otherParams = m.otherParams ∧
    ∀ i j : Nat, (m.encoderLayers[i]?.bind (fun l : List Bool => l[j]?)) = some false →
      (m2.encoderLayers[i]?.bind (fun l : List Bool => l[j]?)) = some false := by
  by_cases hpos : 0 < n
  · simp only [freezeEncoderLayers, if_pos hpos] at h
    cases hfr : freezeRange 0 n.toNat m.encoderLayers with
    | none => rw [hfr] at h; cases h
    | some l =>
      rw [hfr] at h
      injection h with h1
      obtain ⟨h2, h3⟩ := Prod.mk.injEq .. ▸ h1
      obtain ⟨hlen, hchar⟩ := freezeRange_eq_some n.toNat 0 m.encoderLayers l hfr
      refine ⟨by rw [← h2], ?_⟩
      intro i j hij
      cases hmi : m.encoderLayers[i]? with
      | none => rw [hmi] at hij; simp at hij
      | some li =>
        rw [hmi] at hij
        simp only [Option.some_bind] at hij
        have hci := hchar i
        rw [← h2]
        by_cases hcond : 0 ≤ i ∧ i < 0 + n.toNat
        · rw [if_pos hcond] at hci
          rw [hci, hmi]
          simp only [Option.map_some', Option.some_bind, List.getElem?_map, hij,
            Option.map_some']
        · rw [if_neg hcond] at hci
          rw [hci, hmi]
          simpa using hij
  · simp only [freezeEncoderLayers, if_neg hpos] at h
    injection h with h1
    obtain ⟨h2, h3⟩ := Prod.mk.injEq .. ▸ h1
    rw [← h2]
    exact ⟨rfl, fun i j hij => hij⟩

/-- Witness for `freeze_never_unfreezes`: the already-frozen parameter in
sublayer 0 stays frozen after freezing one layer. -/
theorem freeze_never_unfreezes_witness :
    freezeEncoderLayers ⟨[[false, true]], [true]⟩ 1 =
      Except.ok (⟨[[false, false]], [true]⟩, "Freezing the first 1 encoder layers.") ∧
    ((⟨[[false, false]], [true]⟩ : WhisperModel).encoderLayers[0]?.bind
      (fun l => l[0]?)) = some false :=
  ⟨rfl,
    (freeze_never_unfreezes ⟨[[false, true]], [true]⟩ 1 ⟨[[false, false]], [true]⟩
      "Freezing the first 1 encoder layers." rfl).2 0 0 rfl⟩

/-! ### The hyperparameter table and argument validation -/

/-- C1: the hyperparameter lookup is not total over the four argparse
choices: "tiny" is accepted at validation time (it is a `sizeChoices`
member, line 16) yet `get_training_args` has no branch for it and falls
through to Python's implicit `None` (an undefined configuration that
crashes downstream at `training_args.output_dir`), while the other three
sizes do get a defined configuration. -/
theorem get_training_args_not_total :
    "tiny" ∈ sizeChoices ∧
    get_training_args "tiny" 0 = none ∧
    (get_training_args "small" 0).isSome = true ∧
    (get_training_args "medium" 0).isSome = true ∧
    (get_training_args "large" 0).isSome = true :=
  ⟨by decide, rfl, rfl, rfl, rfl⟩

/-- C2 counterexample: with `--freeze_layers -1` the program does not abort
at input validation — argparse accepts the value (the claim, formalised as
"for every negative count the parse is rejected", fails at `-1`) — and the
run proceeds, the freeze block taking its no-op branch. -/
theorem negative_freeze_accepted :
    parseArgs "large" (-1) = some ⟨"large", -1⟩ ∧
    freezeEncoderLayers ⟨[[true, true], [true]], [true]⟩ (-1) =
      Except.ok (⟨[[true, true], [true]], [true]⟩, "No encoder layers are frozen.") :=
  ⟨rfl, rfl⟩

/-- C2 amended: a negative freeze-layer count is accepted by argument
parsing (argparse validates only the size choice) and is treated exactly
like 0 by the freeze block: no layer is touched and the run proceeds,
logging "No encoder layers are frozen.". -/
theorem negative_freeze_is_noop (size : String) (n : Int) (m : WhisperModel)
    (hs : size ∈ sizeChoices) (hn : n < 0) :
    parseArgs size n = some ⟨size, n⟩ ∧
    freezeEncoderLayers m n = Except.ok (m, "No encoder layers are frozen.") := by
  constructor
  · simp only [parseArgs, if_pos hs]
  · simp only [freezeEncoderLayers, if_neg (by omega : ¬ (0 : Int) < n)]

/-- Witness for `negative_freeze_is_noop` at size "large", count `-1`. -/
theorem negative_freeze_is_noop_witness :
    "large" ∈ sizeChoices ∧ (-1 : Int) < 0 ∧
    (parseArgs "large" (-1) = some ⟨"large", -1⟩ ∧
      freezeEncoderLayers ⟨[[true]], [false]⟩ (-1) =
        Except.ok (⟨[[true]], [false]⟩, "No encoder layers are frozen.")) :=
  ⟨by decide, by decide,
    negative_freeze_is_noop "large" (-1) ⟨[[true]], [false]⟩ (by decide) (by decide)⟩

/-- C7: output-directory naming. For size "large" with a positive freeze
count `k` the directory name contains "freezing-k"; for size "large" with
count 0 it contains "vanilla"; for size "small" it contains "vanilla"
whatever the freeze count is. Containment is stated on the character
lists: some split `s ++ piece ++ t` equals the directory name. -/
theorem output_dir_naming (k : Int) :
    (0 < k → ∃ s t, s ++ ("freezing-" ++ toString k).data ++ t =
      (output_dir_for "large" k).data) ∧
    (∃ s t, s ++ "vanilla".data ++ t = (output_dir_for "large" 0).data) ∧
    (∃ s t, s ++ "vanilla".data ++ t = (output_dir_for "small" k).data) := by
  refine ⟨?_, ⟨"../../trained_models/whisper-large-".data, [], by decide⟩, ?_⟩
  · intro hk
    have hdir : output_dir_for "large" k =
        "../../trained_models/whisper-large-freezing-" ++ toString k := by
      unfold output_dir_for
      rw [if_pos ⟨rfl, hk⟩]
    refine ⟨"../../trained_models/whisper-large-".data, [], ?_⟩
    rw [hdir]
    simp only [String.data_append, List.append_nil, ← List.append_assoc]
    congr 1
  · have hc : ¬(("small" : String) = "large" ∧ 0 < k) := by
      rintro ⟨hc, _⟩
      exact absurd hc (by decide)
    have hdir : output_dir_for "small" k =
        "../../trained_models/whisper-" ++ "small" ++ "-vanilla" := by
      unfold output_dir_for
      rw [if_neg hc]
    refine ⟨"../../trained_models/whisper-small-".data, [], ?_⟩
    rw [hdir]
    decide

/-- Witness for `output_dir_naming` at `k = 3`. -/
theorem output_dir_naming_witness :
    (0 : Int) < 3 ∧
    ∃ s t, s ++ ("freezing-" ++ toString (3 : Int)).data ++ t =
      (output_dir_for "large" 3).data :=
  ⟨by decide, (output_dir_naming 3).1 (by decide)⟩

/-! ### Properties of the checkpoint locator -/

/-- If some entry's key computation fails, the whole key pass fails (Python:
the first failing `int(...)` aborts the sort with its exception). -/
theorem keysOf_error_of_mem :
    ∀ (l : List String) (e : String), e ∈ l → (checkpointKey e).isOk = false →
      ∃ msg, keysOf l = Except.error msg := by
  intro l
  induction l with
  | nil => intro e he _; cases he
  | cons d ds ih =>
    intro e he hbad
    cases hk : checkpointKey d with
    | error msg => exact ⟨msg, by simp [keysOf, hk]⟩
    | ok k =>
      have hne : e ≠ d := by
        rintro rfl
        rw [hk] at hbad
        simp [Except.isOk, Except.toBool] at hbad
      have hmem : e ∈ ds := by
        rcases List.mem_cons.mp he with h1 | h2
        · exact absurd h1 hne
        · exact h2
      obtain ⟨msg, hmsg⟩ := ih e hmem hbad
      exact ⟨msg, by simp [keysOf, hk, hmsg]⟩

/-- If every entry's key computation succeeds, the key pass returns the
keyed list in order. -/
theorem keysOf_ok_of_all :
    ∀ (l : List String), (∀ e ∈ l, (checkpointKey e).isOk = true) →
      ∃ keyed, keysOf l = Except.ok keyed ∧ keyed.map Prod.fst = l ∧
        ∀ p ∈ keyed, checkpointKey p.1 = Except.ok p.2 := by
  intro l
  induction l with
  | nil => intro _; exact ⟨[], rfl, rfl, by intro p hp; cases hp⟩
  | cons d ds ih =>
    intro hall
    cases hk : checkpointKey d with
    | error msg =>
      have := hall d (List.mem_cons_self d ds)
      rw [hk] at this
      simp [Except.isOk, Except.toBool] at this
    | ok k =>
      obtain ⟨keyed, h1, h2, h3⟩ := ih (fun e he => hall e (List.mem_cons_of_mem d he))
      refine ⟨(d, k) :: keyed, by simp [keysOf, hk, h1], by simp [h2], ?_⟩
      intro p hp
      rcases List.mem_cons.mp hp with h4 | h5
      · rw [h4]; exact hk
      · exact h3 p h5

/-- The fold that models `sort(key=..., reverse=True)` followed by `[0]`
picks an element of the list. -/
theorem pickMax_mem : ∀ (ps : List (String × Int)) (p : String × Int),
    pickMax p ps ∈ p :: ps := by
  intro ps
  induction ps with
  | nil => intro p; simp [pickMax]
  | cons q qs ih =>
    intro p
    have h := ih (if p.2 < q.2 then q else p)
    rw [show pickMax p (q :: qs) = pickMax (if p.2 < q.2 then q else p) qs from rfl]
    rcases List.mem_cons.mp h with h1 | h2
    · rw [h1]
      by_cases hpq : p.2 < q.2 <;> simp [hpq]
    · simp [List.mem_cons, h2]

/-- The same fold picks an element whose key is maximal. -/
theorem pickMax_le : ∀ (ps : List (String × Int)) (p q : String × Int),
    q ∈ p :: ps → q.2 ≤ (pickMax p ps).2 := by
  intro ps
  induction ps with
  | nil =>
    intro p q hq
    rcases List.mem_cons.mp hq with h1 | h2
    · rw [h1]; simp [pickMax]
    · cases h2
  | cons r rs ih =>
    intro p q hq
    rw [show pickMax p (r :: rs) = pickMax (if p.2 < r.2 then r else p) rs from rfl]
    have hbase : p.2 ≤ (if p.2 < r.2 then r else p).2 ∧
        r.2 ≤ (if p.2 < r.2 then r else p).2 := by
      by_cases h : p.2 < r.2 <;> simp [h] <;> omega
    have hhead := ih (if p.2 < r.2 then r else p) (if p.2 < r.2 then r else p)
      (List.mem_cons_self _ _)
    rcases List.mem_cons.mp hq with h1 | h2
    · rw [h1]; exact le_trans hbase.1 hhead
    · rcases List.mem_cons.mp h2 with h3 | h4
      · rw [h3]; exact le_trans hbase.2 hhead
      · exact ih _ q (List.mem_cons_of_mem _ h4)

/-- C4: a directory holding an entry whose name begins with "checkpoint"
but whose token after the first "-" is not an integer makes
`get_latest_checkpoint` fail fast with that parse error, instead of
silently skipping the entry. -/
theorem malformed_checkpoint_name_errors (dir : String) (entries : List String)
    (e : String) (he : e ∈ entries) (hpre : pyStartsWith e "checkpoint" = true)
    (hbad : (checkpointKey e).isOk = false) :
    ∃ msg, get_latest_checkpoint dir (some entries) = Except.error msg := by
  have hmem : e ∈ checkpointCandidates entries := List.mem_filter.mpr ⟨he, hpre⟩
  obtain ⟨msg, hm⟩ := keysOf_error_of_mem (checkpointCandidates entries) e hmem hbad
  exact ⟨msg, by simp [get_latest_checkpoint, hm]⟩

/-- Witness for `malformed_checkpoint_name_errors`: a directory containing
"checkpoint-abc". -/
theorem malformed_checkpoint_name_errors_witness :
    "checkpoint-abc" ∈ ["checkpoint-abc"] ∧
    pyStartsWith "checkpoint-abc" "checkpoint" = true ∧
    (checkpointKey "checkpoint-abc").isOk = false ∧
    ∃ msg, get_latest_checkpoint "out" (some ["checkpoint-abc"]) = Except.error msg :=
  ⟨by decide, by decide, by decide,
    malformed_checkpoint_name_errors "out" ["checkpoint-abc"] "checkpoint-abc"
      (by decide) (by decide) (by decide)⟩

/-- C5: the checkpoint locator returns `none` for a nonexistent directory
and for a directory with no "checkpoint"-prefixed entry; when matching
entries exist and all parse, it returns the path (directory joined with
"/") of a matching entry whose integer suffix is maximal. -/
theorem get_latest_checkpoint_spec (dir : String) (entries : List String)
    (hne : checkpointCandidates entries ≠ [])
    (hok : ∀ e ∈ checkpointCandidates entries, (checkpointKey e).isOk = true) :
    get_latest_checkpoint dir none = Except.ok none ∧
    (∀ ents : List String, (∀ e ∈ ents, pyStartsWith e "checkpoint" = false) →
      get_latest_checkpoint dir (some ents) = Except.ok none) ∧
    ∃ best kbest, best ∈ checkpointCandidates entries ∧
      checkpointKey best = Except.ok kbest ∧
      get_latest_checkpoint dir (some entries) = Except.ok (some (dir ++ "/" ++ best)) ∧
      ∀ e ∈ checkpointCandidates entries, ∀ k, checkpointKey e = Except.ok k →
        k ≤ kbest := by
  refine ⟨rfl, ?_, ?_⟩
  · intro ents hno
    have hnil : checkpointCandidates ents = [] := by
      simp only [checkpointCandidates, List.filter_eq_nil_iff]
      intro a ha
      simp [hno a ha]
    simp [get_latest_checkpoint, hnil, keysOf]
  · obtain ⟨keyed, h1, h2, h3⟩ := keysOf_ok_of_all (checkpointCandidates entries) hok
    cases keyed with
    | nil =>
      rw [← h2] at hne
      simp at hne
    | cons p ps =>
      refine ⟨(pickMax p ps).1, (pickMax p ps).2, ?_, ?_, ?_, ?_⟩
      · rw [← h2]
        exact List.mem_map.mpr ⟨pickMax p ps, pickMax_mem ps p, rfl⟩
      · exact h3 _ (pickMax_mem ps p)
      · simp [get_latest_checkpoint, h1]
      · intro e he k hk
        rw [← h2] at he
        obtain ⟨pe, hpe, hpe1⟩ := List.mem_map.mp he
        have hkey := h3 pe hpe
        rw [hpe1, hk] at hkey
        injection hkey with hkk
        rw [hkk]
        exact pickMax_le ps p pe hpe

/-- Witness for `get_latest_checkpoint_spec`: the spec's example directory
with checkpoints 500, 1500 and 200. -/
theorem get_latest_checkpoint_spec_witness :
    checkpointCandidates ["checkpoint-500", "checkpoint-1500", "checkpoint-200"] ≠ [] ∧
    (∀ e ∈ checkpointCandidates ["checkpoint-500", "checkpoint-1500", "checkpoint-200"],
      (checkpointKey e).isOk = true) ∧
    (get_latest_checkpoint "out" none = Except.ok none ∧
      (∀ ents : List String, (∀ e ∈ ents, pyStartsWith e "checkpoint" = false) →
        get_latest_checkpoint "out" (some ents) = Except.ok none) ∧
      ∃ best kbest,
        best ∈ checkpointCandidates ["checkpoint-500", "checkpoint-1500", "checkpoint-200"] ∧
        checkpointKey best = Except.ok kbest ∧
        get_latest_checkpoint "out" (some ["checkpoint-500", "checkpoint-1500", "checkpoint-200"]) =
          Except.ok (some ("out" ++ "/" ++ best)) ∧
        ∀ e ∈ checkpointCandidates ["checkpoint-500", "checkpoint-1500", "checkpoint-200"],
          ∀ k, checkpointKey e = Except.ok k → k ≤ kbest) :=
  ⟨by decide, by decide,
    get_latest_checkpoint_spec "out" ["checkpoint-500", "checkpoint-1500", "checkpoint-200"]
      (by decide) (by decide)⟩

/-- C8: for every run whose locator pass succeeds, exactly one of fresh
start and resume is active; the mode is `resume p` precisely when the
locator returned entry `p` and `fresh` precisely when it returned `none`,
and the decision is a function of the directory contents alone (identical
listings give identical modes). -/
theorem start_mode_spec (dir : String) (listing : Option (List String))
    (mode : StartMode) (h : startMode dir listing = Except.ok mode) :
    (mode = StartMode.fresh ↔ get_latest_checkpoint dir listing = Except.ok none) ∧
    (∀ p, mode = StartMode.resume p ↔
      get_latest_checkpoint dir listing = Except.ok (some p)) ∧
    ¬(mode = StartMode.fresh ∧ ∃ p, mode = StartMode.resume p) ∧
    (∀ listing2, listing2 = listing → startMode dir listing2 = Except.ok mode) := by
  cases hg : get_latest_checkpoint dir listing with
  | error e => simp [startMode, hg] at h
  | ok r =>
    cases r with
    | none =>
      simp only [startMode, hg] at h
      injection h with h1
      refine ⟨?_, ?_, ?_, ?_⟩
      · simp [← h1]
      · intro p; simp [← h1]
      · simp [← h1]
      · rintro listing2 rfl
        simp [startMode, hg, ← h1]
    | some p0 =>
      simp only [startMode, hg] at h
      injection h with h1
      refine ⟨?_, ?_, ?_, ?_⟩
      · simp [← h1]
      · intro p; simp [← h1]
      · simp [← h1]
      · rintro listing2 rfl
        simp [startMode, hg, ← h1]

/-- Witness for `start_mode_spec`: a directory with one checkpoint resolves
to resume mode. -/
theorem start_mode_spec_witness :
    startMode "out" (some ["checkpoint-5"]) =
      Except.ok (StartMode.resume "out/checkpoint-5") ∧
    (StartMode.resume "out/checkpoint-5" = StartMode.resume "out/checkpoint-5" ↔
      get_latest_checkpoint "out" (some ["checkpoint-5"]) =
        Except.ok (some "out/checkpoint-5")) :=
  ⟨rfl,
    (start_mode_spec "out" (some ["checkpoint-5"])
      (StartMode.resume "out/checkpoint-5") rfl).2.1 "out/checkpoint-5"⟩

/-- C9: candidate selection is purely prefix-based — an entry is a
candidate exactly when its name starts with "checkpoint", so
"checkpoints-old" and a bare "checkpoint" are both treated as candidates —
and the step number is parsed from the token between the first and second
"-" only, so "checkpoint-100-backup" parses as step 100 with the trailing
text ignored and is returned as the located checkpoint. -/
theorem checkpoint_prefix_and_token_parsing :
    (∀ (entries : List String) (name : String),
      name ∈ checkpointCandidates entries ↔
        name ∈ entries ∧ pyStartsWith name "checkpoint" = true) ∧
    checkpointCandidates ["checkpoints-old", "checkpoint", "model.bin"] =
      ["checkpoints-old", "checkpoint"] ∧
    checkpointKey "checkpoint-100-backup" = Except.ok 100 ∧
    get_latest_checkpoint "out" (some ["checkpoint-100-backup"]) =
      Except.ok (some "out/checkpoint-100-backup") := by
  refine ⟨?_, by decide, rfl, rfl⟩
  intro entries name
  simp [checkpointCandidates, List.mem_filter]

end Training
